import Mathlib

/-!
# Verification of the Juug real-time voice-translation client

Shallow embedding of the audio/session core of `src/App.tsx` (the Gemini
live-translation client): the playback scheduler, the turn aggregator, the
session lifecycle callbacks (`toggleSession`, `startSession`, `onmessage`,
`onerror`, `onclose`) and the audio helpers.  Time values and sample values
are modelled as rationals; the message callback is modelled as a pure state
transformer parameterised by the clock readings the real code observes.
-/

namespace Juug

/-! ## Data model -/

/-- Role of a transcription entry (`types.ts`, `Transcription.role`). -/
inductive Role where
  | user
  | model
  deriving DecidableEq, Repr

/-- One transcript log entry (`types.ts`, interface `Transcription`). -/
structure Transcription where
  role : Role
  text : String
  timestamp : Nat
  deriving DecidableEq, Repr

/-- One scheduled playback source node, recording the start time passed to
`sourceNode.start` and the buffer duration (`App.tsx` lines 140-150). -/
structure Handle where
  startTime : ℚ
  duration : ℚ
  deriving DecidableEq, Repr

/-- The playback-scheduler state: `nextStartTimeRef` and `sourcesRef`
(`App.tsx` lines 27-28).  The source set is modelled as a list in insertion
order. -/
structure PlaybackState where
  nextStartTime : ℚ
  sources : List Handle
  deriving DecidableEq, Repr

/-- Playback state at session start: `nextStartTimeRef` initialised to `0`
and an empty source set (`App.tsx` lines 27-28). -/
def initPlayback : PlaybackState := { nextStartTime := 0, sources := [] }

/-- Whole-app state seen by the callbacks: the `TranslationSessionState`
fields, the device/resource refs, the playback scheduler state, the per-role
transcript buffers and the transcript log (`App.tsx` lines 13-29). -/
structure SysState where
  isActive : Bool
  isConnecting : Bool
  error : Option String
  micHeld : Bool
  inputCtxHeld : Bool
  outputCtxHeld : Bool
  nextStartTime : ℚ
  sources : List Handle
  bufUser : String
  bufModel : String
  transcriptions : List Transcription
  deriving DecidableEq, Repr

/-! ## Chunk decoder

`decodeAudioData` lives in `utils/audio-processing`, which is not part of
the sources; it is modelled from the spec. -/

/-- Decode failure cases of the chunk decoder (spec §4.2, §7). -/
inductive DecodeError where
  | emptyPayload
  | oddLength
  deriving DecidableEq, Repr

/-- A decoded PCM buffer: floating-point samples, sample rate and duration
(spec §3, DecodedBuffer). -/
structure DecodedBuffer where
  samples : List ℚ
  sampleRate : ℚ
  duration : ℚ
  deriving DecidableEq, Repr

/-- Signed 16-bit integer from a little-endian byte pair. -/
def int16OfBytes (lo hi : Nat) : ℤ :=
  let v : Nat := lo + 256 * hi
  if v < 32768 then (v : ℤ) else (v : ℤ) - 65536

/-- Group a byte list into consecutive little-endian pairs. -/
def pairBytes : List Nat → List (Nat × Nat)
  | lo :: hi :: rest => (lo, hi) :: pairBytes rest
  | _ => []

/-- Modelled from the spec: `decodeAudioData` of `utils/audio-processing` is
absent from the sources.  Per spec §4.2 it yields a DecodedBuffer with
`payloadLength / 2` samples, each sample `int16 / 32768.0`, duration
`sampleCount / sampleRate`, and fails with `DecodeError` when the payload is
empty or its length is not a multiple of 2. -/
def decodeAudioData (payload : List Nat) (sampleRate : ℚ) :
    Except DecodeError DecodedBuffer :=
  if payload.isEmpty then .error .emptyPayload
  else if payload.length % 2 ≠ 0 then .error .oddLength
  else
    .ok { samples := (pairBytes payload).map
            (fun p => (int16OfBytes p.1 p.2 : ℚ) / 32768)
          sampleRate := sampleRate
          duration := ((payload.length / 2 : Nat) : ℚ) / sampleRate }

/-! ## Frame encoder -/

/-- Clamp a sample into `[-1, 1]` (spec §4.1). -/
def clamp (x : ℚ) : ℚ := max (-1) (min 1 x)

/-- Modelled from the spec: `createBlob` of `utils/audio-processing` is
absent from the sources.  Per spec §4.1 the frame encoder maps each input
sample to `round(clamp(x,-1,1) * 32767)`, a 16-bit signed sample, keeping
the length. -/
def createBlob (data : List ℚ) : List ℤ :=
  data.map (fun x => round (clamp x * 32767))

/-! ## Playback scheduler operations -/

/-- Start time chosen for a buffer enqueued at output-clock reading `clock`:
`max(nextStartTime, currentTime)` (`App.tsx` line 137, used by line 148). -/
def schedStart (clock : ℚ) (s : PlaybackState) : ℚ :=
  max s.nextStartTime clock

/-- Enqueue one decoded buffer of duration `d` at output-clock reading
`clock`: start at `max(nextStartTime, currentTime)`, advance
`nextStartTime` by the duration, register the source node
(`App.tsx` lines 137, 148-150). -/
def enqueue (clock d : ℚ) (s : PlaybackState) : PlaybackState :=
  let start := schedStart clock s
  { nextStartTime := start + d
    sources := s.sources ++ [{ startTime := start, duration := d }] }

/-- Enqueue a list of `(clock reading, duration)` pairs in order. -/
def enqueueAll (s : PlaybackState) : List (ℚ × ℚ) → PlaybackState
  | [] => s
  | cd :: rest => enqueueAll (enqueue cd.1 cd.2 s) rest

/-- The start times chosen for a list of `(clock, duration)` enqueues. -/
def startTimes (s : PlaybackState) : List (ℚ × ℚ) → List ℚ
  | [] => []
  | cd :: rest => schedStart cd.1 s :: startTimes (enqueue cd.1 cd.2 s) rest

/-- Every arrival precedes `nextStartTime` catching up to the output clock:
at each enqueue the clock reading is at most the current `nextStartTime`. -/
def arrivalsPrecede (s : PlaybackState) : List (ℚ × ℚ) → Bool
  | [] => true
  | cd :: rest => decide (cd.1 ≤ s.nextStartTime) &&
      arrivalsPrecede (enqueue cd.1 cd.2 s) rest

/-- Back-to-back start times from `t0` for durations `ds`. -/
def cumStarts (t0 : ℚ) : List ℚ → List ℚ
  | [] => []
  | d :: ds => t0 :: cumStarts (t0 + d) ds

/-- The handles stopped by `flush`: every source in the set gets `stop()`
(`App.tsx` line 155). -/
def flushStopped (s : PlaybackState) : List Handle := s.sources

/-- The interruption flush: stop all sources, clear the set and reset
`nextStartTime` to `0` (`App.tsx` lines 154-157). -/
def flushP (_s : PlaybackState) : PlaybackState :=
  { nextStartTime := 0, sources := [] }

/-! ## The message callback -/

/-- One inbound `LiveServerMessage` as the callback reads it: optional
transcription fragments per role, the `turnComplete` flag, the optional
inline audio payload (already base64-decoded to bytes; an absent or empty
`data` string is the `none`/`[]` case) and the `interrupted` flag
(`App.tsx` lines 111-158). -/
structure ServerMessage where
  inputTranscription : Option String
  outputTranscription : Option String
  turnComplete : Bool
  audioData : Option (List Nat)
  interrupted : Bool
  deriving DecidableEq, Repr

/-- Transcription-fragment handling: append each present fragment to its
role's accumulating buffer (`App.tsx` lines 113-118). -/
def fragStep (msg : ServerMessage) (s : SysState) : SysState :=
  let s1 := match msg.inputTranscription with
    | some t => { s with bufUser := s.bufUser ++ t }
    | none => s
  match msg.outputTranscription with
  | some t => { s1 with bufModel := s1.bufModel ++ t }
  | none => s1

/-- JavaScript `String.prototype.trim`: drop whitespace from both ends,
modelled over the character list so it evaluates. -/
def jsTrim (s : String) : String :=
  ⟨((s.data.dropWhile Char.isWhitespace).reverse.dropWhile
      Char.isWhitespace).reverse⟩

/-- Turn-complete handling with clock readings `n1` (the `Date.now()` read
for the user entry) and `n2` (the read for the model entry, stored as
`n2 + 1`): trim both buffers, append one entry per non-empty role — user
first — and clear both buffers (`App.tsx` lines 119-131). -/
def turnStep (n1 n2 : Nat) (s : SysState) : SysState :=
  let userText := jsTrim s.bufUser
  let modelText := jsTrim s.bufModel
  let log :=
    if userText ≠ "" ∨ modelText ≠ "" then
      s.transcriptions
        ++ (if userText ≠ "" then [{ role := .user, text := userText, timestamp := n1 }] else [])
        ++ (if modelText ≠ "" then [{ role := .model, text := modelText, timestamp := n2 + 1 }] else [])
    else s.transcriptions
  { s with transcriptions := log, bufUser := "", bufModel := "" }

/-- Audio-output handling for an inline payload at output-clock reading
`clock`: guarded by `base64Audio` being truthy (non-empty) and the output
context being held; first `nextStartTime = max(nextStartTime, currentTime)`,
then decode; on success schedule at `nextStartTime`, advance it by the
buffer duration and register the source node; a decode failure drops the
chunk (`App.tsx` lines 134-151; the decoder itself is spec-modelled). -/
def audioStep (clock : ℚ) (payload : List Nat) (s : SysState) : SysState :=
  if payload.isEmpty ∨ s.outputCtxHeld = false then s
  else
    let next1 := max s.nextStartTime clock
    match decodeAudioData payload 24000 with
    | .ok buf =>
        { s with nextStartTime := next1 + buf.duration
                 sources := s.sources ++ [{ startTime := next1, duration := buf.duration }] }
    | .error _ => { s with nextStartTime := next1 }

/-- Interruption handling: stop every source, clear the set, reset
`nextStartTime` to `0` (`App.tsx` lines 153-158). -/
def interruptStep (s : SysState) : SysState :=
  { s with sources := [], nextStartTime := 0 }

/-- The `onmessage` callback, parameterised by the two `Date.now()` readings
and the output-clock reading it may observe: fragments, then turn-complete,
then audio output, then interruption (`App.tsx` lines 111-158). -/
def onmessage (msg : ServerMessage) (n1 n2 : Nat) (clock : ℚ) (s : SysState) : SysState :=
  let s1 := fragStep msg s
  let s2 := if msg.turnComplete then turnStep n1 n2 s1 else s1
  let s3 := match msg.audioData with
    | some payload => audioStep clock payload s2
    | none => s2
  if msg.interrupted then interruptStep s3 else s3

/-! ## Session lifecycle -/

/-- `cleanupAudio`: close both audio contexts, stop the microphone tracks
and drop the stream, stop and clear all sources, reset `nextStartTime`
(`App.tsx` lines 32-48). -/
def cleanupAudio (s : SysState) : SysState :=
  { s with inputCtxHeld := false, outputCtxHeld := false, micHeld := false,
           sources := [], nextStartTime := 0 }

/-- `toggleSession` taken on an active session: close the network session,
run `cleanupAudio`, clear the active/connecting flags
(`App.tsx` lines 51-58). -/
def toggleSessionStop (s : SysState) : SysState :=
  let s1 := cleanupAudio s
  { s1 with isActive := false, isConnecting := false }

/-- The `onerror` callback: record the fixed error message and clear the
active/connecting flags; nothing else (`App.tsx` lines 160-163). -/
def onerror (s : SysState) : SysState :=
  { s with error := some "Connection error occurred.",
           isActive := false, isConnecting := false }

/-- The `onclose` callback: clear the active/connecting flags; nothing else
(`App.tsx` lines 164-167). -/
def onclose (s : SysState) : SysState :=
  { s with isActive := false, isConnecting := false }

/-- Where a `startSession` attempt stops: `getUserMedia` rejects before any
resource is stored; or a later step (audio-context construction /
synchronous connect failure) throws after the microphone stream was stored;
or everything succeeds up to awaiting the connection. -/
inductive StartOutcome where
  | micFail (msg : String)
  | afterMicFail (msg : String)
  | ok
  deriving DecidableEq, Repr

/-- `startSession` up to its `catch`: set connecting and clear the error;
acquire the microphone and store it; create the input/output contexts and
store them; on any thrown error the `catch` records the message and clears
the connecting flag, releasing nothing (`App.tsx` lines 65-78, 173-176). -/
def startSessionAttempt (o : StartOutcome) (s : SysState) : SysState :=
  let s1 := { s with isConnecting := true, error := none }
  match o with
  | .micFail m => { s1 with error := some m, isConnecting := false }
  | .afterMicFail m =>
      { s1 with micHeld := true, error := some m, isConnecting := false }
  | .ok => { s1 with micHeld := true, inputCtxHeld := true, outputCtxHeld := true }

/-! ## Concrete states used by counterexamples and witnesses -/

/-- An active session holding the microphone, both contexts and one
scheduled source. -/
def heldActive : SysState :=
  { isActive := true, isConnecting := false, error := none,
    micHeld := true, inputCtxHeld := true, outputCtxHeld := true,
    nextStartTime := 2, sources := [{ startTime := 0, duration := 2 }],
    bufUser := "", bufModel := "", transcriptions := [] }

/-- An active session with an empty scheduler, about to receive audio. -/
def freshActive : SysState :=
  { isActive := true, isConnecting := false, error := none,
    micHeld := true, inputCtxHeld := true, outputCtxHeld := true,
    nextStartTime := 0, sources := [],
    bufUser := "", bufModel := "", transcriptions := [] }

/-- An active session with text accumulated in both transcript buffers. -/
def turnS : SysState :=
  { isActive := true, isConnecting := false, error := none,
    micHeld := true, inputCtxHeld := true, outputCtxHeld := true,
    nextStartTime := 0, sources := [],
    bufUser := " Hello ", bufModel := "Hola", transcriptions := [] }

/-- An active session with partial fragments already buffered. -/
def fragS : SysState :=
  { isActive := true, isConnecting := false, error := none,
    micHeld := true, inputCtxHeld := true, outputCtxHeld := true,
    nextStartTime := 0, sources := [],
    bufUser := "He", bufModel := "Ho", transcriptions := [] }

/-- The idle state before any session is started. -/
def idleS : SysState :=
  { isActive := false, isConnecting := false, error := none,
    micHeld := false, inputCtxHeld := false, outputCtxHeld := false,
    nextStartTime := 0, sources := [],
    bufUser := "", bufModel := "", transcriptions := [] }

/-! ## Helper lemmas -/

/-- Under `arrivalsPrecede`, every chosen start time is the running
`nextStartTime`, so the starts are the cumulative sums of the durations. -/
theorem startTimes_of_precede :
    ∀ (l : List (ℚ × ℚ)) (s : PlaybackState), arrivalsPrecede s l = true →
      startTimes s l = cumStarts s.nextStartTime (l.map Prod.snd)
  | [], _, _ => rfl
  | cd :: rest, s, h => by
      rw [arrivalsPrecede, Bool.and_eq_true, decide_eq_true_eq] at h
      have hstart : schedStart cd.1 s = s.nextStartTime :=
        max_eq_left h.1
      have hnext : (enqueue cd.1 cd.2 s).nextStartTime = s.nextStartTime + cd.2 := by
        simp [enqueue, hstart]
      rw [startTimes, hstart, List.map_cons, cumStarts,
        startTimes_of_precede rest _ h.2, hnext]

/-- Under `arrivalsPrecede`, the final `nextStartTime` is the initial one
plus the total duration. -/
theorem enqueueAll_next_of_precede :
    ∀ (l : List (ℚ × ℚ)) (s : PlaybackState), arrivalsPrecede s l = true →
      (enqueueAll s l).nextStartTime = s.nextStartTime + (l.map Prod.snd).sum
  | [], _, _ => by simp [enqueueAll]
  | cd :: rest, s, h => by
      rw [arrivalsPrecede, Bool.and_eq_true, decide_eq_true_eq] at h
      have hstart : schedStart cd.1 s = s.nextStartTime :=
        max_eq_left h.1
      have hnext : (enqueue cd.1 cd.2 s).nextStartTime = s.nextStartTime + cd.2 := by
        simp [enqueue, hstart]
      rw [enqueueAll, enqueueAll_next_of_precede rest _ h.2, hnext,
        List.map_cons, List.sum_cons]
      ring

/-- `pairBytes` halves the length (rounding down). -/
theorem pairBytes_length : ∀ l : List Nat, (pairBytes l).length = l.length / 2
  | [] => by simp [pairBytes]
  | [_] => by simp [pairBytes]
  | _ :: _ :: rest => by
      simp only [pairBytes, List.length_cons, pairBytes_length rest]
      omega

/-- The `i`-th byte pair consists of bytes `2*i` and `2*i+1`. -/
theorem pairBytes_getD :
    ∀ (l : List Nat) (i : Nat), 2 * i + 1 < l.length →
      (pairBytes l).getD i (0, 0) = (l.getD (2 * i) 0, l.getD (2 * i + 1) 0)
  | [], _, h => by simp at h
  | [_], i, h => by simp at h
  | a :: b :: rest, 0, _ => by simp [pairBytes]
  | a :: b :: rest, i + 1, h => by
      have hrest : 2 * i + 1 < rest.length := by
        simp only [List.length_cons] at h; omega
      have h2 : 2 * (i + 1) = 2 * i + 1 + 1 := by omega
      simp only [pairBytes, List.getD_cons_succ, h2,
        pairBytes_getD rest i hrest]

/-- `getD` on a mapped list, inside the bound. -/
theorem getD_map_of_lt {α β : Type} (f : α → β) (dflt : α) :
    ∀ (l : List α) (i : Nat), i < l.length →
      (l.map f).getD i (f dflt) = f (l.getD i dflt)
  | [], _, h => by simp at h
  | a :: rest, 0, _ => by simp
  | a :: rest, i + 1, h => by
      have hrest : i < rest.length := by
        simp only [List.length_cons] at h; omega
      simp only [List.map_cons, List.getD_cons_succ,
        getD_map_of_lt f dflt rest i hrest]

/-- `clamp` really lands in `[-1, 1]`. -/
theorem clamp_mem (x : ℚ) : -1 ≤ clamp x ∧ clamp x ≤ 1 := by
  constructor
  · exact le_max_left _ _
  · exact max_le (by norm_num) (min_le_left _ _)

/-- The rounded scaled sample is a signed 16-bit value. -/
theorem round_scaled_bounds (x : ℚ) :
    -32767 ≤ round (clamp x * 32767) ∧ round (clamp x * 32767) ≤ 32767 := by
  obtain ⟨hlo, hhi⟩ := clamp_mem x
  have hl : (-32767 : ℚ) ≤ clamp x * 32767 := by nlinarith
  have hr : clamp x * 32767 ≤ 32767 := by nlinarith
  constructor
  · have h1 : clamp x * 32767 - 1 / 2 < (round (clamp x * 32767) : ℚ) :=
      sub_half_lt_round _
    have h2 : (-32768 : ℚ) < (round (clamp x * 32767) : ℚ) := by linarith
    have h3 : (-32768 : ℤ) < round (clamp x * 32767) := by exact_mod_cast h2
    omega
  · have h1 : (round (clamp x * 32767) : ℚ) ≤ clamp x * 32767 + 1 / 2 :=
      round_le_add_half _
    have h2 : (round (clamp x * 32767) : ℚ) < 32768 := by linarith
    have h3 : round (clamp x * 32767) < (32768 : ℤ) := by exact_mod_cast h2
    omega

/-- The `i`-th decoded sample comes from the byte pair at positions `2*i`
and `2*i + 1`. -/
theorem decoded_sample_getD (payload : List Nat) (i : Nat)
    (hi : 2 * i + 1 < payload.length) :
    ((pairBytes payload).map
        (fun p => (int16OfBytes p.1 p.2 : ℚ) / 32768)).getD i 0 =
      (int16OfBytes (payload.getD (2 * i) 0) (payload.getD (2 * i + 1) 0) : ℚ)
        / 32768 := by
  have hi' : i < (pairBytes payload).length := by
    rw [pairBytes_length]; omega
  have h := getD_map_of_lt
    (fun p : Nat × Nat => (int16OfBytes p.1 p.2 : ℚ) / 32768) (0, 0)
    (pairBytes payload) i hi'
  rw [pairBytes_getD payload i hi] at h
  rw [show (0 : ℚ) = (int16OfBytes 0 0 : ℚ) / 32768 from by norm_num [int16OfBytes]]
  exact h

/-! ## Claims -/

/-- C2: processing an interruption (flush) stops every currently
scheduled or playing handle, leaves the handle set empty, and resets
`nextStartTime` to 0; it is idempotent, safe when the handle set is
already empty, and a subsequent enqueue behaves exactly as it would at
session start.  Stated both for the scheduler-level `flushP` and for the
`interrupted` block of the message callback. -/
theorem flush_resets (p : PlaybackState) (s : SysState) (clock d : ℚ) :
    flushStopped p = p.sources ∧
    (flushP p).sources = [] ∧
    (flushP p).nextStartTime = 0 ∧
    flushP (flushP p) = flushP p ∧
    flushP initPlayback = initPlayback ∧
    enqueue clock d (flushP p) = enqueue clock d initPlayback ∧
    (interruptStep s).sources = [] ∧
    (interruptStep s).nextStartTime = 0 ∧
    interruptStep (interruptStep s) = interruptStep s :=
  ⟨rfl, rfl, rfl, rfl, rfl, rfl, rfl, rfl, rfl⟩

/-- C9: processing a message that carries only an `interrupted()` signal
mutates only the playback state: the handle set is cleared and
`nextStartTime` reset, while the transcript buffers, the transcript log,
and every session/resource field are left unchanged. -/
theorem interrupted_only_playback (s : SysState) (n1 n2 : Nat) (clock : ℚ) :
    onmessage { inputTranscription := none, outputTranscription := none,
                turnComplete := false, audioData := none, interrupted := true }
        n1 n2 clock s = interruptStep s ∧
    (interruptStep s).bufUser = s.bufUser ∧
    (interruptStep s).bufModel = s.bufModel ∧
    (interruptStep s).transcriptions = s.transcriptions ∧
    (interruptStep s).isActive = s.isActive ∧
    (interruptStep s).isConnecting = s.isConnecting ∧
    (interruptStep s).error = s.error ∧
    (interruptStep s).micHeld = s.micHeld ∧
    (interruptStep s).inputCtxHeld = s.inputCtxHeld ∧
    (interruptStep s).outputCtxHeld = s.outputCtxHeld ∧
    (interruptStep s).sources = [] ∧
    (interruptStep s).nextStartTime = 0 :=
  ⟨rfl, rfl, rfl, rfl, rfl, rfl, rfl, rfl, rfl, rfl, rfl, rfl⟩

/-- C4 (code-bug evidence): the user-stop path (`toggleSession`) does
release the devices and flush playback, but the `onclose` callback — the
network's closed() signal — only clears the session flags: the microphone,
both audio contexts and every scheduled source remain held and
`nextStartTime` keeps its value, contradicting the claimed release-on-close
invariant. -/
theorem onclose_retains_resources :
    (onclose heldActive).isActive = false ∧
    (onclose heldActive).isConnecting = false ∧
    (onclose heldActive).micHeld = true ∧
    (onclose heldActive).inputCtxHeld = true ∧
    (onclose heldActive).outputCtxHeld = true ∧
    (onclose heldActive).sources = [{ startTime := 0, duration := 2 }] ∧
    (onclose heldActive).nextStartTime = 2 ∧
    (toggleSessionStop heldActive).micHeld = false ∧
    (toggleSessionStop heldActive).inputCtxHeld = false ∧
    (toggleSessionStop heldActive).outputCtxHeld = false ∧
    (toggleSessionStop heldActive).sources = [] ∧
    (toggleSessionStop heldActive).nextStartTime = 0 :=
  ⟨rfl, rfl, rfl, rfl, rfl, rfl, rfl, rfl, rfl, rfl, rfl, rfl⟩

/-- C5 (code-bug evidence): on a device-acquisition failure after the
microphone was stored, the `startSession` catch records the message but
keeps the microphone; on a `getUserMedia` failure nothing had been stored;
the `onerror` callback records its message but releases neither the
microphone, the contexts, nor the scheduled sources. -/
theorem error_paths_retain_resources :
    (startSessionAttempt (.afterMicFail "boom") idleS).micHeld = true ∧
    (startSessionAttempt (.afterMicFail "boom") idleS).error = some "boom" ∧
    (startSessionAttempt (.afterMicFail "boom") idleS).isConnecting = false ∧
    (startSessionAttempt (.micFail "denied") idleS).micHeld = false ∧
    (startSessionAttempt (.micFail "denied") idleS).error = some "denied" ∧
    (onerror heldActive).error = some "Connection error occurred." ∧
    (onerror heldActive).isActive = false ∧
    (onerror heldActive).micHeld = true ∧
    (onerror heldActive).inputCtxHeld = true ∧
    (onerror heldActive).outputCtxHeld = true ∧
    (onerror heldActive).sources = [{ startTime := 0, duration := 2 }] :=
  ⟨rfl, rfl, rfl, rfl, rfl, rfl, rfl, rfl, rfl, rfl, rfl⟩

/-- C1: every enqueued buffer is scheduled at
`max(nextStartTime, currentOutputClock)` and `nextStartTime` advances to
`startTime + duration`; when each arrival precedes `nextStartTime`
catching up to the output clock, the start times of a run of buffers are
the gapless cumulative sums `t0, t0 + d1, t0 + d1 + d2, ...` and the final
`nextStartTime` is `t0` plus the total duration.  The message callback's
audio block with a successfully decoded buffer performs exactly this
enqueue on the system state. -/
theorem scheduler_back_to_back
    (s : PlaybackState) (clock d : ℚ) (l : List (ℚ × ℚ))
    (sys : SysState) (payload : List Nat) (buf : DecodedBuffer)
    (hprec : arrivalsPrecede s l = true)
    (hctx : sys.outputCtxHeld = true)
    (hne : payload.isEmpty = false)
    (hdec : decodeAudioData payload 24000 = .ok buf) :
    schedStart clock s = max s.nextStartTime clock ∧
    (enqueue clock d s).nextStartTime = schedStart clock s + d ∧
    (enqueue clock d s).sources =
      s.sources ++ [{ startTime := schedStart clock s, duration := d }] ∧
    startTimes s l = cumStarts s.nextStartTime (l.map Prod.snd) ∧
    (enqueueAll s l).nextStartTime = s.nextStartTime + (l.map Prod.snd).sum ∧
    audioStep clock payload sys =
      { sys with
          nextStartTime := max sys.nextStartTime clock + buf.duration
          sources := sys.sources ++
            [{ startTime := max sys.nextStartTime clock, duration := buf.duration }] } := by
  refine ⟨rfl, rfl, rfl, startTimes_of_precede l s hprec,
    enqueueAll_next_of_precede l s hprec, ?_⟩
  simp [audioStep, hne, hctx, hdec]

/-- Concrete run for `scheduler_back_to_back`: two buffers of durations 1
and 2 arriving at clock 0, and a decoded 2-byte chunk. -/
theorem scheduler_back_to_back_witness :
    arrivalsPrecede initPlayback [(0, 1), (0, 2)] = true ∧
    freshActive.outputCtxHeld = true ∧
    ([0, 0] : List Nat).isEmpty = false ∧
    decodeAudioData [0, 0] 24000 =
      .ok { samples := [0], sampleRate := 24000, duration := 1 / 24000 } ∧
    (schedStart 0 initPlayback = max initPlayback.nextStartTime 0 ∧
     (enqueue 0 2 initPlayback).nextStartTime = schedStart 0 initPlayback + 2 ∧
     (enqueue 0 2 initPlayback).sources =
       initPlayback.sources ++ [{ startTime := schedStart 0 initPlayback, duration := 2 }] ∧
     startTimes initPlayback [(0, 1), (0, 2)] =
       cumStarts initPlayback.nextStartTime ([(0, 1), (0, 2)].map Prod.snd) ∧
     (enqueueAll initPlayback [(0, 1), (0, 2)]).nextStartTime =
       initPlayback.nextStartTime + ([(0, 1), (0, 2)].map Prod.snd).sum ∧
     audioStep 0 [0, 0] freshActive =
       { freshActive with
           nextStartTime := max freshActive.nextStartTime 0 +
             (DecodedBuffer.mk [0] 24000 (1 / 24000)).duration
           sources := freshActive.sources ++
             [{ startTime := max freshActive.nextStartTime 0,
                duration := (DecodedBuffer.mk [0] 24000 (1 / 24000)).duration }] }) :=
  ⟨by norm_num [arrivalsPrecede, enqueue, schedStart, initPlayback],
   rfl,
   rfl,
   by norm_num [decodeAudioData, pairBytes, int16OfBytes],
   scheduler_back_to_back initPlayback 0 2 [(0, 1), (0, 2)] freshActive [0, 0]
     (DecodedBuffer.mk [0] 24000 (1 / 24000))
     (by norm_num [arrivalsPrecede, enqueue, schedStart, initPlayback])
     rfl rfl
     (by norm_num [decodeAudioData, pairBytes, int16OfBytes])⟩

/-- C3: on a turn-complete signal exactly one entry is emitted per role
whose trimmed buffer is non-empty (none when both are empty), the user
entry precedes the model entry and carries a strictly smaller timestamp,
and both buffers are cleared afterwards regardless of what was emitted. -/
theorem turn_complete_emission (s : SysState) (n1 n2 : Nat) (h : n1 ≤ n2) :
    (turnStep n1 n2 s).bufUser = "" ∧
    (turnStep n1 n2 s).bufModel = "" ∧
    (turnStep n1 n2 s).transcriptions =
      s.transcriptions
        ++ (if jsTrim s.bufUser ≠ "" then
              [{ role := .user, text := jsTrim s.bufUser, timestamp := n1 }] else [])
        ++ (if jsTrim s.bufModel ≠ "" then
              [{ role := .model, text := jsTrim s.bufModel, timestamp := n2 + 1 }] else []) ∧
    n1 < n2 + 1 := by
  refine ⟨rfl, rfl, ?_, by omega⟩
  by_cases hu : jsTrim s.bufUser = "" <;> by_cases hm : jsTrim s.bufModel = "" <;>
    simp [turnStep, hu, hm]

/-- Concrete run for `turn_complete_emission`: user buffer " Hello ",
model buffer "Hola", clock readings 5 and 7. -/
theorem turn_complete_emission_witness :
    5 ≤ 7 ∧
    ((turnStep 5 7 turnS).bufUser = "" ∧
     (turnStep 5 7 turnS).bufModel = "" ∧
     (turnStep 5 7 turnS).transcriptions =
       turnS.transcriptions
         ++ (if jsTrim turnS.bufUser ≠ "" then
               [{ role := .user, text := jsTrim turnS.bufUser, timestamp := 5 }] else [])
         ++ (if jsTrim turnS.bufModel ≠ "" then
               [{ role := .model, text := jsTrim turnS.bufModel, timestamp := 7 + 1 }] else []) ∧
     (5 : Nat) < 7 + 1) :=
  ⟨by omega, turn_complete_emission turnS 5 7 (by omega)⟩

/-- On a payload the decoder rejects, the audio block either skips entirely
(empty payload, or output context not held) or only syncs `nextStartTime`
to the output clock before the decode fails. -/
theorem audioStep_bad (clock : ℚ) (q : List Nat) (s : SysState)
    (hbad : q.isEmpty = true ∨ q.length % 2 ≠ 0) :
    audioStep clock q s = s ∨
      audioStep clock q s = { s with nextStartTime := max s.nextStartTime clock } := by
  by_cases he : q.isEmpty = true
  · left
    simp [audioStep, he]
  · have hne : q.isEmpty = false := by
      revert he; cases q.isEmpty <;> simp
    have hodd : q.length % 2 ≠ 0 := by
      rcases hbad with h | h
      · exact absurd h he
      · exact h
    by_cases hc : s.outputCtxHeld = true
    · right
      have hdec : decodeAudioData q 24000 = .error .oddLength := by
        simp [decodeAudioData, hne, hodd]
      simp [audioStep, hne, hc, hdec]
    · left
      have hcf : s.outputCtxHeld = false := by
        revert hc; cases s.outputCtxHeld <;> simp
      simp [audioStep, hcf]

/-- C6 counterexample: a corrupt (odd-length) inbound chunk is not a
no-op on the scheduler state — `nextStartTime` jumps from 0 to the output
clock reading 5 even though nothing was scheduled. -/
theorem corrupt_chunk_moves_next :
    decodeAudioData [0, 0, 0] 24000 = .error .oddLength ∧
    (onmessage { inputTranscription := none, outputTranscription := none,
                 turnComplete := false, audioData := some [0, 0, 0],
                 interrupted := false } 0 0 5 freshActive).nextStartTime = 5 ∧
    freshActive.nextStartTime = 0 ∧ (5 : ℚ) ≠ 0 := by
  refine ⟨by norm_num [decodeAudioData], ?_, rfl, by norm_num⟩
  have hdec : decodeAudioData [0, 0, 0] 24000 = .error .oddLength := by
    norm_num [decodeAudioData]
  simp [onmessage, fragStep, audioStep, freshActive, hdec]

/-- C6 amended: an empty (zero-duration) payload is skipped entirely; a
corrupt (odd-length) payload schedules nothing, registers no handle and
leaves every session, transcript and log field unchanged, but first
advances `nextStartTime` to `max(nextStartTime, currentOutputClock)`;
neither case is fatal to the session. -/
theorem degenerate_enqueue_amended (s : SysState) (clock : ℚ) (payload : List Nat)
    (hctx : s.outputCtxHeld = true) (hodd : payload.length % 2 ≠ 0) :
    audioStep clock [] s = s ∧
    (audioStep clock payload s).sources = s.sources ∧
    (audioStep clock payload s).nextStartTime = max s.nextStartTime clock ∧
    (audioStep clock payload s).isActive = s.isActive ∧
    (audioStep clock payload s).isConnecting = s.isConnecting ∧
    (audioStep clock payload s).error = s.error ∧
    (audioStep clock payload s).micHeld = s.micHeld ∧
    (audioStep clock payload s).bufUser = s.bufUser ∧
    (audioStep clock payload s).bufModel = s.bufModel ∧
    (audioStep clock payload s).transcriptions = s.transcriptions := by
  have hne : payload.isEmpty = false := by
    cases payload with
    | nil => simp at hodd
    | cons a l => rfl
  have hdec : decodeAudioData payload 24000 = .error .oddLength := by
    simp [decodeAudioData, hne, hodd]
  have haux : audioStep clock payload s =
      { s with nextStartTime := max s.nextStartTime clock } := by
    simp [audioStep, hne, hctx, hdec]
  exact ⟨by simp [audioStep], by rw [haux], by rw [haux], by rw [haux],
    by rw [haux], by rw [haux], by rw [haux], by rw [haux], by rw [haux],
    by rw [haux]⟩

/-- Concrete run for `degenerate_enqueue_amended`: a three-byte corrupt
chunk against the held active state at clock 7. -/
theorem degenerate_enqueue_amended_witness :
    heldActive.outputCtxHeld = true ∧
    ([1, 2, 3] : List Nat).length % 2 ≠ 0 ∧
    (audioStep 7 [] heldActive = heldActive ∧
     (audioStep 7 [1, 2, 3] heldActive).sources = heldActive.sources ∧
     (audioStep 7 [1, 2, 3] heldActive).nextStartTime =
       max heldActive.nextStartTime 7 ∧
     (audioStep 7 [1, 2, 3] heldActive).isActive = heldActive.isActive ∧
     (audioStep 7 [1, 2, 3] heldActive).isConnecting = heldActive.isConnecting ∧
     (audioStep 7 [1, 2, 3] heldActive).error = heldActive.error ∧
     (audioStep 7 [1, 2, 3] heldActive).micHeld = heldActive.micHeld ∧
     (audioStep 7 [1, 2, 3] heldActive).bufUser = heldActive.bufUser ∧
     (audioStep 7 [1, 2, 3] heldActive).bufModel = heldActive.bufModel ∧
     (audioStep 7 [1, 2, 3] heldActive).transcriptions =
       heldActive.transcriptions) :=
  ⟨rfl, by norm_num,
   degenerate_enqueue_amended heldActive 7 [1, 2, 3] rfl (by norm_num)⟩

/-- C7: on a non-empty even-length payload the decoder yields exactly
`payloadLength / 2` samples, the `i`-th equal to the 16-bit signed
little-endian integer at bytes `2i, 2i+1` divided by 32768, with duration
`sampleCount / sampleRate`; it fails exactly on empty or odd-length
payloads, and such a failure drops only that chunk: the session flags,
error, handle set, buffers and transcript log are untouched. -/
theorem decoder_spec (payload q : List Nat) (rate : ℚ) (i : Nat)
    (s : SysState) (clock : ℚ)
    (hne : payload.isEmpty = false) (heven : payload.length % 2 = 0)
    (hi : 2 * i + 1 < payload.length)
    (hbad : q.isEmpty = true ∨ q.length % 2 ≠ 0) :
    (decodeAudioData payload rate).isOk = true ∧
    (decodeAudioData payload rate).map (fun b => b.samples.length) =
      .ok (payload.length / 2) ∧
    (decodeAudioData payload rate).map (fun b => b.duration) =
      .ok (((payload.length / 2 : Nat) : ℚ) / rate) ∧
    (decodeAudioData payload rate).map (fun b => b.samples.getD i 0) =
      .ok ((int16OfBytes (payload.getD (2 * i) 0) (payload.getD (2 * i + 1) 0) : ℚ)
        / 32768) ∧
    (decodeAudioData q rate).isOk = false ∧
    (audioStep clock q s).isActive = s.isActive ∧
    (audioStep clock q s).isConnecting = s.isConnecting ∧
    (audioStep clock q s).error = s.error ∧
    (audioStep clock q s).sources = s.sources ∧
    (audioStep clock q s).bufUser = s.bufUser ∧
    (audioStep clock q s).bufModel = s.bufModel ∧
    (audioStep clock q s).transcriptions = s.transcriptions := by
  have hok : decodeAudioData payload rate =
      .ok { samples := (pairBytes payload).map
              (fun p => (int16OfBytes p.1 p.2 : ℚ) / 32768)
            sampleRate := rate
            duration := ((payload.length / 2 : Nat) : ℚ) / rate } := by
    simp [decodeAudioData, hne, heven]
  have hfail : (decodeAudioData q rate).isOk = false := by
    rcases hbad with h | h
    · simp [decodeAudioData, h, Except.isOk, Except.toBool]
    · by_cases he : q.isEmpty = true
      · simp [decodeAudioData, he, Except.isOk, Except.toBool]
      · have hne' : q.isEmpty = false := by
          revert he; cases q.isEmpty <;> simp
        simp [decodeAudioData, hne', h, Except.isOk, Except.toBool]
  refine ⟨by rw [hok]; rfl, ?_, by rw [hok]; rfl, ?_, hfail,
    ?_, ?_, ?_, ?_, ?_, ?_, ?_⟩
  · rw [hok]
    simp [Except.map, pairBytes_length]
  · rw [hok]
    simp only [Except.map]
    rw [decoded_sample_getD payload i hi]
  all_goals rcases audioStep_bad clock q s hbad with h | h <;> rw [h]

/-- Concrete run for `decoder_spec`: a 4-byte payload whose second sample
is the int16 value -32768, a corrupt 3-byte payload, and the held active
state at clock 9. -/
theorem decoder_spec_witness :
    ([1, 0, 0, 128] : List Nat).isEmpty = false ∧
    ([1, 0, 0, 128] : List Nat).length % 2 = 0 ∧
    2 * 1 + 1 < ([1, 0, 0, 128] : List Nat).length ∧
    (([1, 2, 3] : List Nat).isEmpty = true ∨
      ([1, 2, 3] : List Nat).length % 2 ≠ 0) ∧
    ((decodeAudioData [1, 0, 0, 128] 24000).isOk = true ∧
     (decodeAudioData [1, 0, 0, 128] 24000).map (fun b => b.samples.length) =
       .ok (([1, 0, 0, 128] : List Nat).length / 2) ∧
     (decodeAudioData [1, 0, 0, 128] 24000).map (fun b => b.duration) =
       .ok (((([1, 0, 0, 128] : List Nat).length / 2 : Nat) : ℚ) / 24000) ∧
     (decodeAudioData [1, 0, 0, 128] 24000).map (fun b => b.samples.getD 1 0) =
       .ok ((int16OfBytes (([1, 0, 0, 128] : List Nat).getD (2 * 1) 0)
              (([1, 0, 0, 128] : List Nat).getD (2 * 1 + 1) 0) : ℚ) / 32768) ∧
     (decodeAudioData [1, 2, 3] 24000).isOk = false ∧
     (audioStep 9 [1, 2, 3] heldActive).isActive = heldActive.isActive ∧
     (audioStep 9 [1, 2, 3] heldActive).isConnecting = heldActive.isConnecting ∧
     (audioStep 9 [1, 2, 3] heldActive).error = heldActive.error ∧
     (audioStep 9 [1, 2, 3] heldActive).sources = heldActive.sources ∧
     (audioStep 9 [1, 2, 3] heldActive).bufUser = heldActive.bufUser ∧
     (audioStep 9 [1, 2, 3] heldActive).bufModel = heldActive.bufModel ∧
     (audioStep 9 [1, 2, 3] heldActive).transcriptions =
       heldActive.transcriptions) :=
  ⟨rfl, by norm_num, by norm_num, Or.inr (by norm_num),
   decoder_spec [1, 0, 0, 128] [1, 2, 3] 24000 1 heldActive 9
     rfl (by norm_num) (by norm_num) (Or.inr (by norm_num))⟩

/-- C8: the frame encoder is a pure total function, preserves the input
length, and each output sample equals `round(clamp(x, -1, 1) * 32767)`
exactly — in particular a signed 16-bit value. -/
theorem encoder_spec (data : List ℚ) (i : Nat) (hi : i < data.length) :
    (createBlob data).length = data.length ∧
    (createBlob data).getD i 0 = round (clamp (data.getD i 0) * 32767) ∧
    -32767 ≤ (createBlob data).getD i 0 ∧
    (createBlob data).getD i 0 ≤ 32767 := by
  have h0 : round (clamp (0 : ℚ) * 32767) = 0 := by
    norm_num [clamp]
  have hget : (createBlob data).getD i 0 =
      round (clamp (data.getD i 0) * 32767) := by
    have h := getD_map_of_lt (fun x : ℚ => round (clamp x * 32767)) 0 data i hi
    rw [show (0 : ℤ) = round (clamp (0 : ℚ) * 32767) from h0.symm]
    exact h
  refine ⟨List.length_map data _, hget, ?_, ?_⟩
  · rw [hget]; exact (round_scaled_bounds _).1
  · rw [hget]; exact (round_scaled_bounds _).2

/-- Concrete run for `encoder_spec`: the two-sample frame `[1/2, -2]`
(the second sample is out of range and gets clamped). -/
theorem encoder_spec_witness :
    0 < ([1 / 2, -2] : List ℚ).length ∧
    ((createBlob [1 / 2, -2]).length = ([1 / 2, -2] : List ℚ).length ∧
     (createBlob [1 / 2, -2]).getD 0 0 =
       round (clamp (([1 / 2, -2] : List ℚ).getD 0 0) * 32767) ∧
     -32767 ≤ (createBlob [1 / 2, -2]).getD 0 0 ∧
     (createBlob [1 / 2, -2]).getD 0 0 ≤ 32767) :=
  ⟨by norm_num, encoder_spec [1 / 2, -2] 0 (by norm_num)⟩

/-- C10: a message carrying both a transcript fragment and a turn-complete
signal appends the fragment to its role's buffer before the turn is
finalized, so the fragment's text is part of the entry emitted for that
same turn, and both buffers are empty afterwards; stated for a user-role
fragment and for a model-role fragment. -/
theorem fragment_in_same_turn (s : SysState) (t u : String) (n1 n2 : Nat)
    (clock : ℚ)
    (hu : jsTrim (s.bufUser ++ t) ≠ "") (hm : jsTrim (s.bufModel ++ u) ≠ "") :
    (onmessage { inputTranscription := some t, outputTranscription := none,
                 turnComplete := true, audioData := none, interrupted := false }
        n1 n2 clock s).bufUser = "" ∧
    (onmessage { inputTranscription := some t, outputTranscription := none,
                 turnComplete := true, audioData := none, interrupted := false }
        n1 n2 clock s).bufModel = "" ∧
    (onmessage { inputTranscription := some t, outputTranscription := none,
                 turnComplete := true, audioData := none, interrupted := false }
        n1 n2 clock s).transcriptions =
      s.transcriptions
        ++ [{ role := .user, text := jsTrim (s.bufUser ++ t), timestamp := n1 }]
        ++ (if jsTrim s.bufModel ≠ "" then
              [{ role := .model, text := jsTrim s.bufModel, timestamp := n2 + 1 }]
            else []) ∧
    (onmessage { inputTranscription := none, outputTranscription := some u,
                 turnComplete := true, audioData := none, interrupted := false }
        n1 n2 clock s).bufUser = "" ∧
    (onmessage { inputTranscription := none, outputTranscription := some u,
                 turnComplete := true, audioData := none, interrupted := false }
        n1 n2 clock s).bufModel = "" ∧
    (onmessage { inputTranscription := none, outputTranscription := some u,
                 turnComplete := true, audioData := none, interrupted := false }
        n1 n2 clock s).transcriptions =
      s.transcriptions
        ++ (if jsTrim s.bufUser ≠ "" then
              [{ role := .user, text := jsTrim s.bufUser, timestamp := n1 }]
            else [])
        ++ [{ role := .model, text := jsTrim (s.bufModel ++ u),
              timestamp := n2 + 1 }] := by
  refine ⟨rfl, rfl, ?_, rfl, rfl, ?_⟩
  · show (turnStep n1 n2 { s with bufUser := s.bufUser ++ t }).transcriptions = _
    by_cases hm0 : jsTrim s.bufModel = "" <;> simp [turnStep, hu, hm0]
  · show (turnStep n1 n2 { s with bufModel := s.bufModel ++ u }).transcriptions = _
    by_cases hu0 : jsTrim s.bufUser = "" <;> simp [turnStep, hm, hu0]

/-- Concrete run for `fragment_in_same_turn`: buffers "He"/"Ho" with
fragments "llo"/"la" arriving on the turn-completing message itself. -/
theorem fragment_in_same_turn_witness :
    jsTrim (fragS.bufUser ++ "llo") ≠ "" ∧
    jsTrim (fragS.bufModel ++ "la") ≠ "" ∧
    ((onmessage { inputTranscription := some "llo", outputTranscription := none,
                  turnComplete := true, audioData := none, interrupted := false }
         3 4 0 fragS).bufUser = "" ∧
     (onmessage { inputTranscription := some "llo", outputTranscription := none,
                  turnComplete := true, audioData := none, interrupted := false }
         3 4 0 fragS).bufModel = "" ∧
     (onmessage { inputTranscription := some "llo", outputTranscription := none,
                  turnComplete := true, audioData := none, interrupted := false }
         3 4 0 fragS).transcriptions =
       fragS.transcriptions
         ++ [{ role := .user, text := jsTrim (fragS.bufUser ++ "llo"),
               timestamp := 3 }]
         ++ (if jsTrim fragS.bufModel ≠ "" then
               [{ role := .model, text := jsTrim fragS.bufModel,
                  timestamp := 4 + 1 }]
             else []) ∧
     (onmessage { inputTranscription := none, outputTranscription := some "la",
                  turnComplete := true, audioData := none, interrupted := false }
         3 4 0 fragS).bufUser = "" ∧
     (onmessage { inputTranscription := none, outputTranscription := some "la",
                  turnComplete := true, audioData := none, interrupted := false }
         3 4 0 fragS).bufModel = "" ∧
     (onmessage { inputTranscription := none, outputTranscription := some "la",
                  turnComplete := true, audioData := none, interrupted := false }
         3 4 0 fragS).transcriptions =
       fragS.transcriptions
         ++ (if jsTrim fragS.bufUser ≠ "" then
               [{ role := .user, text := jsTrim fragS.bufUser, timestamp := 3 }]
             else [])
         ++ [{ role := .model, text := jsTrim (fragS.bufModel ++ "la"),
               timestamp := 4 + 1 }]) :=
  ⟨by decide, by decide,
   fragment_in_same_turn fragS "llo" "la" 3 4 0 (by decide) (by decide)⟩

end Juug
